import Mathlib

/-!
Verification of scripts/extract_clutter_patterns.py.

The Python script is a single-pass text transform: it locates constant array
declarations in TypeScript source text with regular expressions, parses the
quoted string literals out of the captured array body, classifies one of the
extracted lists into named buckets by keyword substring matching, assembles a
fixed nested JSON manifest, and prints it.

The embedding below translates each Python function into an executable Lean
function over List Char and String.  The regular-expression calls are
translated into explicit matchers implementing the exact Python semantics for
the concrete patterns appearing in the script: leftmost search, lazy capture
groups take the shortest body whose tail still matches, greedy optional parts
are tried present-first.  Python whitespace and lowercasing are modelled for
the character range the script actually processes.
-/

set_option autoImplicit false

/-- The single-quote character, written numerically. -/
def sqc : Char := Char.ofNat 39

/-- The double-quote character, written numerically. -/
def dqc : Char := Char.ofNat 34

/-- A character matched by the regex character class holding both quote kinds. -/
def isQuote (c : Char) : Bool := c = sqc || c = dqc

/-- Whitespace as recognized by Python str.strip and the regex class backslash-s
    (ASCII range: space, tab, newline, carriage return, vertical tab, form feed). -/
def isPySpace (c : Char) : Bool :=
  c = ' ' || c = '\t' || c = '\n' || c = '\r' || c = Char.ofNat 11 || c = Char.ofNat 12

/-- Models Python str.strip with no argument: drop leading and trailing whitespace. -/
def pystrip (l : List Char) : List Char :=
  ((l.dropWhile isPySpace).reverse.dropWhile isPySpace).reverse

/-- Models Python str.split on a one-character separator: every separator
    splits, empty pieces are kept, the empty string yields one empty piece. -/
def splitOnChar (sep : Char) : List Char → List (List Char)
  | [] => [[]]
  | c :: rest =>
    if c = sep then [] :: splitOnChar sep rest
    else
      match splitOnChar sep rest with
      | [] => [[c]]
      | l :: ls => (c :: l) :: ls

/-- Splitting on line breaks as the two extraction loops do. -/
def splitNl (l : List Char) : List (List Char) := splitOnChar '\n' l

/-- Does the needle occur as a leading block of the haystack. -/
def leadsWith : List Char → List Char → Bool
  | [], _ => true
  | _ :: _, [] => false
  | n :: ns, h :: hs => n = h && leadsWith ns hs

/-- Models the Python membership test of one string inside another:
    the needle occurs contiguously somewhere in the haystack. -/
def containsSub (hay needle : List Char) : Bool :=
  leadsWith needle hay ||
    match hay with
    | [] => false
    | _ :: t => containsSub t needle

/-- One left-to-right scan implementing re.findall for the pattern
    quote, one or more non-quote characters captured, quote
    (lines 32 and 34 of the script, with q the quote character).
    The state is none outside a candidate literal and some acc after an
    opening quote with acc the content read so far.  A quote closing a
    nonempty content emits the content and the scan resumes after it
    (matches do not overlap); a quote arriving on empty content is the
    failure of the one-or-more class, and the scan retries with that
    quote as the new opener, exactly as re.findall advances by one. -/
def scanQ (q : Char) : Option (List Char) → List Char → List (List Char)
  | _, [] => []
  | none, c :: rest =>
    if c = q then scanQ q (some []) rest else scanQ q none rest
  | some acc, c :: rest =>
    if c = q then
      if acc.isEmpty then scanQ q (some []) rest
      else acc :: scanQ q none rest
    else scanQ q (some (acc ++ [c])) rest

/-- All nonempty single-q-quoted contents of the text, leftmost first. -/
def findallQ (q : Char) (s : List Char) : List (List Char) := scanQ q none s

/-- Strip one leading comma if present: the greedy optional comma of the
    whole-line literal regex on line 46 of the script. -/
def dropComma : List Char → List Char
  | ',' :: t => t
  | t => t

/-- After the optional comma: optional whitespace, then an optional line
    comment, then the unanchored-end marker of the regex on line 46.  That end
    marker accepts the true end of the text or a position just before one
    final newline, and the comment body cannot cross a newline; both details
    are irrelevant for the newline-free lines the script feeds in, but are
    kept so the matcher agrees with the Python regex on every input. -/
def wsCmt (t : List Char) : Bool :=
  match t.dropWhile isPySpace with
  | [] => true
  | '/' :: '/' :: rest => decide ('\n' ∉ rest.dropLast)
  | _ => false

/-- Everything the line regex requires after the closing quote. -/
def tailOk (t : List Char) : Bool := wsCmt (dropComma t)

/-- The lazy one-or-more capture of the line regex, after its first character:
    at each position, prefer closing (a quote whose tail matches), otherwise
    the character joins the captured content. -/
def lazyGo : List Char → Option (List Char)
  | [] => none
  | c :: rest =>
    if isQuote c && tailOk rest then some []
    else if c = '\n' then none
    else (lazyGo rest).map (fun l => c :: l)

/-- The capture group of the line regex: at least one character, then the
    lazily found closing quote.  The any-character class of this regex does
    not have the DOTALL flag, so a newline can never join the content. -/
def matchContent : List Char → Option (List Char)
  | [] => none
  | c :: rest => if c = '\n' then none else (lazyGo rest).map (fun l => c :: l)

/-- Models re.match of the anchored whole-line literal regex of line 46:
    a quote, a lazy nonempty capture, a quote, an optional comma, optional
    whitespace, an optional line comment, end of line. -/
def matchLine : List Char → Option (List Char)
  | [] => none
  | c :: rest => if isQuote c then matchContent rest else none

/-- One body line of the multi-line path, lines 39 to 48 of the script:
    strip it, skip it when empty or a comment line, otherwise match the
    whole-line literal regex. -/
def lineItem (line : List Char) : Option (List Char) :=
  if (pystrip line).isEmpty || (pystrip line).take 2 = ['/', '/'] then none
  else matchLine (pystrip line)

/-- The multi-line branch of extract_array, lines 38 to 49: split the body on
    newlines and collect every line that matches the whole-line literal shape. -/
def multiLineItems (body : List Char) : List (List Char) :=
  (splitNl body).filterMap lineItem

/-- The single-line branch of extract_array, lines 31 to 35: all single-quoted
    literals, falling back to double-quoted literals when none exist. -/
def singleLineItems (body : List Char) : List (List Char) :=
  if (findallQ sqc body).isEmpty then findallQ dqc body else findallQ sqc body

/-- Lines 29 to 49 of the script: the branch decision on a captured array body
    (line 30) followed by the chosen parse.  The single-line branch runs when
    the stripped body holds no newline or the body holds more than four
    single-quote characters. -/
def parseBody (body : List Char) : List (List Char) :=
  if ¬ ('\n' ∈ pystrip body) ∨ 4 < body.count sqc then singleLineItems body
  else multiLineItems body

/-- Match a literal character sequence at the current position, returning the
    remainder on success. -/
def matchLit : List Char → List Char → Option (List Char)
  | [], s => some s
  | _ :: _, [] => none
  | p :: ps, c :: cs => if p = c then matchLit ps cs else none

/-- The optional join call of the first regex of extract_array (line 18):
    a dot, the word join, an opening parenthesis, a quote, a greedy optional
    comma, a quote, a closing parenthesis. -/
def matchJoin (s : List Char) : Option (List Char) :=
  match matchLit ".join(".data s with
  | none => none
  | some r =>
    match r with
    | [] => none
    | q1 :: rest1 =>
      if isQuote q1 then
        (match rest1 with
         | ',' :: q2 :: ')' :: r2 => if isQuote q2 then some r2 else none
         | _ => none)
        <|>
        (match rest1 with
         | q2 :: ')' :: r2 => if isQuote q2 then some r2 else none
         | _ => none)
      else none

/-- The closing required after the lazy body of the first extract_array regex:
    a closing bracket, an optional join call, a semicolon. -/
def exportTailOk : List Char → Bool
  | ']' :: rest =>
    (match matchJoin rest with
     | some (';' :: _) => true
     | _ => false)
    ||
    (match rest with
     | ';' :: _ => true
     | _ => false)
  | _ => false

/-- The closing required by the Set regex of extract_array (line 22):
    a closing bracket then a closing parenthesis. -/
def setTailOk : List Char → Bool
  | ']' :: ')' :: _ => true
  | _ => false

/-- The closing required by the extract_js_array_simple regex (line 105):
    a closing bracket then a semicolon. -/
def simpleTailOk : List Char → Bool
  | ']' :: ';' :: _ => true
  | _ => false

/-- The lazy dot-star capture group with the DOTALL flag: the shortest prefix,
    possibly empty and spanning newlines, whose remainder satisfies ok. -/
def lazyCapture (ok : List Char → Bool) : List Char → Option (List Char)
  | [] => if ok [] then some [] else none
  | c :: rest =>
    if ok (c :: rest) then some []
    else (lazyCapture ok rest).map (fun b => c :: b)

/-- Attempt one declaration regex at the current position: the literal prefix
    (the export or const keyword plus the name), greedy whitespace, an equals
    sign, greedy whitespace, the literal opener (bracket, or the Set call
    opener), then the lazy body capture closed by ok.  The whitespace stars
    are deterministic because the characters after them are never whitespace. -/
def matchDeclAt (pre post : List Char) (ok : List Char → Bool) (s : List Char) : Option (List Char) :=
  match matchLit pre s with
  | none => none
  | some s1 =>
    match s1.dropWhile isPySpace with
    | '=' :: s2 =>
      match matchLit post (s2.dropWhile isPySpace) with
      | none => none
      | some s3 => lazyCapture ok s3
    | _ => none

/-- Models re.search: try the matcher at each position from the left and
    return the first capture found. -/
def reSearch (m : List Char → Option (List Char)) : List Char → Option (List Char)
  | [] => m []
  | c :: rest =>
    match m (c :: rest) with
    | some r => some r
    | none => reSearch m rest

/-- The first regex of extract_array, line 18, for a given name
    (names in the script are plain identifiers, so the interpolated name is a
    literal): export const name equals bracket, lazy body, closing bracket,
    optional join call, semicolon. -/
def searchExport (name : String) (content : List Char) : Option (List Char) :=
  reSearch (matchDeclAt ("export const " ++ name).data "[".data exportTailOk) content

/-- The fallback Set regex of extract_array, line 22. -/
def searchSet (name : String) (content : List Char) : Option (List Char) :=
  reSearch (matchDeclAt ("export const " ++ name).data "new Set([".data setTailOk) content

/-- The regex of extract_js_array_simple, line 105. -/
def searchSimple (name : String) (content : List Char) : Option (List Char) :=
  reSearch (matchDeclAt ("const " ++ name).data "[".data simpleTailOk) content

/-- Models extract_array, lines 15 to 49: try the export regex, then the Set
    regex, return the empty list when neither matches, otherwise parse the
    captured body. -/
def extract_array (name content : String) : List String :=
  match searchExport name content.data with
  | some body => (parseBody body).map String.mk
  | none =>
    match searchSet name content.data with
    | some body => (parseBody body).map String.mk
    | none => []

/-- Models extract_js_array_simple, lines 103 to 119: one regex, and the body
    is always parsed with the per-line literal logic. -/
def extract_js_array_simple (name content : String) : List String :=
  match searchSimple name content.data with
  | some body => (multiLineItems body).map String.mk
  | none => []

/-- Models Python str.lower character by character; the selectors the script
    classifies are ASCII, where the two agree. -/
def pyLower (s : String) : String := String.mk (s.data.map Char.toLower)

/-- The keyword table of lines 71 to 84 of the script, in its declared order. -/
def categoryKeywords : List (String × List String) :=
  [("ads", ["ad", "advert", "promo", "sponsor", "banner"]),
   ("navigation", ["nav", "menu", "breadcrumb", "pagination", "skip", "jump"]),
   ("header_footer", ["header", "footer", "copyright", "masthead", "topbar"]),
   ("sidebar", ["sidebar", "widget", "aside", "rail"]),
   ("social", ["social", "share", "facebook", "twitter", "instagram", "rss"]),
   ("comments", ["comment", "disqus", "discuss", "feedback", "response"]),
   ("auth", ["login", "sign", "register", "access-wall", "paywall", "gated"]),
   ("newsletter", ["newsletter", "subscribe", "signup", "email", "donate"]),
   ("article_meta", ["article-", "article_", "article__"]),
   ("post_meta", ["post-", "post_", "entry-", "byline", "dateline", "timestamp", "pub"]),
   ("author", ["author", "bio", "avatar", "profile", "contributor"]),
   ("related", ["related", "recommend", "more-", "read-next", "keep-reading", "popular", "trending", "recent"])]

/-- The bucket order of the categories dictionary, lines 54 to 68:
    the twelve keyword buckets followed by misc. -/
def bucketNames : List String :=
  ["ads", "navigation", "header_footer", "sidebar", "social", "comments", "auth",
   "newsletter", "article_meta", "post_meta", "author", "related", "misc"]

/-- Does any keyword of the list occur inside the lowercased selector
    (the any call on line 91). -/
def kwMatches (s : String) (kws : List String) : Bool :=
  kws.any (fun kw => containsSub (pyLower s).data kw.data)

/-- The inner loop of lines 90 to 97: the first bucket, in declared order,
    with a keyword occurring in the lowercased selector, and misc when none
    matches. -/
def assignBucket (s : String) : String :=
  match categoryKeywords.find? (fun ck => kwMatches s ck.2) with
  | some ck => ck.1
  | none => "misc"

/-- Appending one selector to the bucket it was assigned to (lines 92 and 97). -/
def addToBucket (bs : List (String × List String)) (b : String) (s : String) :
    List (String × List String) :=
  bs.map (fun p => if p.1 = b then (p.1, p.2 ++ [s]) else p)

/-- Models categorize_partial_selectors, lines 52 to 100 of the script (the
    Python name holds a word the verification toolchain reserves, hence the
    shortened Lean name): every selector is appended to its first matching
    bucket, or to misc, over the ordered bucket dictionary; empty buckets are
    then dropped, keeping the declared order. -/
def categorizeSelectors (sels : List String) : List (String × List String) :=
  (sels.foldl (fun bs s => addToBucket bs (assignBucket s) s)
      (bucketNames.map (fun b => (b, [])))).filter (fun p => !p.2.isEmpty)

/-- JSON values as the script builds them: the manifest only ever holds
    strings, arrays and string-keyed objects. -/
inductive JValue where
  | str (s : String)
  | arr (xs : List JValue)
  | obj (fields : List (String × JValue))

/-- Lowercase hexadecimal digit. -/
def hexDigit (n : Nat) : Char :=
  if n < 10 then Char.ofNat (48 + n) else Char.ofNat (87 + n)

/-- A four-digit unicode escape as json.dumps writes it. -/
def uEsc (n : Nat) : String :=
  "\\u" ++ String.mk [hexDigit (n / 4096 % 16), hexDigit (n / 256 % 16),
                      hexDigit (n / 16 % 16), hexDigit (n % 16)]

/-- One character of a JSON string as json.dumps escapes it with the default
    ensure-ascii setting. -/
def escChar (c : Char) : String :=
  if c = dqc then String.mk ['\\', dqc]
  else if c = '\\' then "\\\\"
  else if c = '\n' then "\\n"
  else if c = '\t' then "\\t"
  else if c = '\r' then "\\r"
  else if c = Char.ofNat 8 then "\\b"
  else if c = Char.ofNat 12 then "\\f"
  else if c.toNat < 32 then uEsc c.toNat
  else if c.toNat < 127 then String.mk [c]
  else if c.toNat < 65536 then uEsc c.toNat
  else uEsc (55296 + (c.toNat - 65536) / 1024) ++ uEsc (56320 + (c.toNat - 65536) % 1024)

/-- A JSON string literal as json.dumps writes it. -/
def jstr (s : String) : String :=
  String.mk [dqc] ++ String.join (s.data.map escChar) ++ String.mk [dqc]

/-- Spaces for one indentation level. -/
def indentStr (n : Nat) : String := String.mk (List.replicate n ' ')

mutual

/-- Models json.dumps with two-space indentation on the value shapes the
    script produces. -/
def dumpVal : JValue → Nat → String
  | JValue.str s, _ => jstr s
  | JValue.arr [], _ => "[]"
  | JValue.arr (x :: xs), ind =>
    "[\n" ++ String.intercalate ",\n" (dumpItems (x :: xs) (ind + 2)) ++ "\n" ++
      indentStr ind ++ "]"
  | JValue.obj [], _ => "\x7b\x7d"
  | JValue.obj (f :: fs), ind =>
    "\x7b\n" ++ String.intercalate ",\n" (dumpFields (f :: fs) (ind + 2)) ++ "\n" ++
      indentStr ind ++ "\x7d"

/-- The indented lines of an array body. -/
def dumpItems : List JValue → Nat → List String
  | [], _ => []
  | v :: vs, ind => (indentStr ind ++ dumpVal v ind) :: dumpItems vs ind

/-- The indented lines of an object body. -/
def dumpFields : List (String × JValue) → Nat → List String
  | [], _ => []
  | (k, v) :: fs, ind => (indentStr ind ++ jstr k ++ ": " ++ dumpVal v ind) :: dumpFields fs ind

end

/-- Serialize a manifest exactly as the print on line 180 does. -/
def dumps (v : JValue) : String := dumpVal v 0

/-- A list of strings as a JSON array. -/
def jarr (xs : List String) : JValue := JValue.arr (xs.map JValue.str)

/-- The manifest dictionary of lines 142 to 178, assembled from the primary
    content and the supplementary scoring content. -/
def buildManifest (content scoring : String) : JValue :=
  JValue.obj
    [("$comment", JValue.str "Web clutter patterns extracted from Defuddle (https://github.com/kepano/defuddle)"),
     ("content_selectors", JValue.obj
       [("$comment", JValue.str "Selectors for finding main content, in priority order"),
        ("selectors", jarr (extract_array "ENTRY_POINT_ELEMENTS" content))]),
     ("remove", JValue.obj
       [("$comment", JValue.str "Elements to remove from the page"),
        ("exact_selectors", jarr (extract_array "EXACT_SELECTORS" content)),
        ("partial_patterns", JValue.obj
          [("$comment", JValue.str "Substring patterns matched against class/id/data-* attributes (case-insensitive)"),
           ("check_attributes", jarr (extract_array "TEST_ATTRIBUTES" content)),
           ("patterns", JValue.obj
             ((categorizeSelectors (extract_array "PARTIAL_SELECTORS" content)).map
               (fun p => (p.1, jarr p.2))))])]),
     ("preserve", JValue.obj
       [("$comment", JValue.str "Elements to preserve during content extraction"),
        ("block_elements", jarr (extract_array "BLOCK_ELEMENTS" content)),
        ("preserve_elements", jarr (extract_array "PRESERVE_ELEMENTS" content)),
        ("inline_elements", jarr (extract_array "INLINE_ELEMENTS" content)),
        ("allowed_empty", jarr (extract_array "ALLOWED_EMPTY_ELEMENTS" content)),
        ("allowed_attributes", jarr (extract_array "ALLOWED_ATTRIBUTES" content))]),
     ("footnotes", JValue.obj
       [("$comment", JValue.str "Selectors for identifying footnotes and citations"),
        ("inline_references", jarr (extract_array "FOOTNOTE_INLINE_REFERENCES" content)),
        ("list_selectors", jarr (extract_array "FOOTNOTE_LIST_SELECTORS" content))]),
     ("scoring", JValue.obj
       [("$comment", JValue.str "Patterns used for content scoring (from scoring.ts)"),
        ("content_indicators", jarr (extract_js_array_simple "contentIndicators" scoring)),
        ("navigation_indicators", jarr (extract_js_array_simple "navigationIndicators" scoring)),
        ("non_content_patterns", jarr (extract_js_array_simple "nonContentPatterns" scoring))])]

/-- Field access inside an optional JSON object, for stating facts about the
    manifest shape. -/
def jGetO : Option JValue → String → Option JValue
  | some (JValue.obj fs), k => fs.lookup k
  | _, _ => none

/-- The observable outcome of one run of the script: exit status, standard
    output and standard error. -/
structure RunResult where
  exitCode : Nat
  stdout : String
  stderr : String

/-- Lines 123 to 127: the primary input path is the first positional argument
    when present, and a fixed default path otherwise.  The argument list here
    is the argument vector after the program name. -/
def resolvePrimary (argv : List String) : String :=
  argv.headD "tmp/defuddle/src/constants.ts"

/-- Line 136: the sibling path with the same parent directory and a fixed
    file name, as pathlib joins it for already-normalized relative or
    absolute paths. -/
def siblingPath (p fname : String) : String :=
  match (splitOnChar '/' p.data).dropLast with
  | [] => fname
  | parts => String.mk (List.intercalate ['/'] parts ++ '/' :: fname.data)

/-- Models main, lines 122 to 180, over an explicit file system given as an
    association list from path to text content.  A missing primary file
    prints a diagnostic to standard error and exits with status 1 before any
    output; a missing scoring file contributes empty text; otherwise the
    serialized manifest and a final newline go to standard output and the
    process ends with status 0. -/
def runModel (argv : List String) (files : List (String × String)) : RunResult :=
  match files.lookup (resolvePrimary argv) with
  | none =>
    { exitCode := 1, stdout := "",
      stderr := "Error: " ++ resolvePrimary argv ++ " not found\n" }
  | some content =>
    { exitCode := 0,
      stdout := dumps (buildManifest content
        ((files.lookup (siblingPath (resolvePrimary argv) "scoring.ts")).getD "")) ++ "\n",
      stderr := "" }

/-- The optional trailing comma of a well-shaped literal line. -/
def commaPart : Bool → List Char
  | true => [',']
  | false => []

/-- The optional trailing line comment of a well-shaped literal line. -/
def commentPart : Option (List Char) → List Char
  | none => []
  | some t => '/' :: '/' :: t

/-- The primary input text of the end-to-end scenario: one entry point
    declaration and nothing else. -/
def c8content : String :=
  "export const ENTRY_POINT_ELEMENTS = [\x27article\x27, \x27main\x27];"

/-- The manifest the scenario produces, with empty supplementary text. -/
def c8manifest : JValue := buildManifest c8content ""

/-- Every content the findall scan emits was guarded by a nonemptiness test. -/
theorem scanQ_ne_nil (q : Char) (s : List Char) :
    ∀ (st : Option (List Char)) (x : List Char), x ∈ scanQ q st s → x ≠ [] := by
  induction s with
  | nil => intro st x hx; cases st <;> simp [scanQ] at hx
  | cons c rest ih =>
    intro st x hx
    cases st with
    | none =>
      by_cases hq : c = q
      · rw [scanQ, if_pos hq] at hx
        exact ih _ x hx
      · rw [scanQ, if_neg hq] at hx
        exact ih _ x hx
    | some acc =>
      by_cases hq : c = q
      · by_cases he : acc.isEmpty = true
        · rw [scanQ, if_pos hq, if_pos he] at hx
          exact ih _ x hx
        · rw [scanQ, if_pos hq, if_neg he] at hx
          rcases List.mem_cons.mp hx with h | h
          · subst h
            intro hnil
            rw [hnil] at he
            exact he rfl
          · exact ih _ x h
      · rw [scanQ, if_neg hq] at hx
        exact ih _ x hx

/-- The single-line extraction path emits no empty string. -/
theorem findallQ_ne_nil (q : Char) (s : List Char) : ∀ x ∈ findallQ q s, x ≠ [] :=
  scanQ_ne_nil q s none

/-- A successful whole-line literal match captured at least one character. -/
theorem matchLine_some_ne_nil (l x : List Char) (h : matchLine l = some x) : x ≠ [] := by
  cases l with
  | nil => simp [matchLine] at h
  | cons c rest =>
    rw [matchLine] at h
    by_cases hq : isQuote c = true
    · rw [if_pos hq] at h
      cases rest with
      | nil => simp [matchContent] at h
      | cons c2 r2 =>
        rw [matchContent] at h
        by_cases hn : c2 = '\n'
        · rw [if_pos hn] at h
          exact absurd h (by simp)
        · rw [if_neg hn] at h
          obtain ⟨a, _, hx⟩ := Option.map_eq_some'.mp h
          rw [← hx]
          simp
    · rw [if_neg hq] at h
      exact absurd h (by simp)

/-- The multi-line extraction path emits no empty string. -/
theorem multiLineItems_ne_nil (body : List Char) : ∀ x ∈ multiLineItems body, x ≠ [] := by
  intro x hx
  rw [multiLineItems] at hx
  obtain ⟨line, _, hl⟩ := List.mem_filterMap.mp hx
  rw [lineItem] at hl
  split at hl
  · exact absurd hl (by simp)
  · exact matchLine_some_ne_nil _ x hl

/-- Neither branch of the body parse emits an empty string. -/
theorem parseBody_ne_nil (body : List Char) : ∀ x ∈ parseBody body, x ≠ [] := by
  intro x hx
  rw [parseBody] at hx
  split at hx
  · rw [singleLineItems] at hx
    split at hx
    · exact findallQ_ne_nil dqc body x hx
    · exact findallQ_ne_nil sqc body x hx
  · exact multiLineItems_ne_nil body x hx

/-- A string built from a nonempty character list is not the empty string. -/
theorem mk_ne_empty (l : List Char) (h : l ≠ []) : String.mk l ≠ "" := by
  intro he
  exact h (congrArg String.data he)

/-- C10: every string in a sequence returned by extract_array or
    extract_js_array_simple is nonempty: the single-line literal patterns
    require at least one character between the quotes and the multi-line
    whole-line pattern requires at least one character of inner content, so
    empty string literals are never emitted. -/
theorem extracted_strings_nonempty (name content : String) :
    (∀ s ∈ extract_array name content, s ≠ "") ∧
    (∀ s ∈ extract_js_array_simple name content, s ≠ "") := by
  constructor
  · intro s hs
    rw [extract_array] at hs
    split at hs
    · obtain ⟨l, hl, hmk⟩ := List.mem_map.mp hs
      rw [← hmk]
      exact mk_ne_empty l (parseBody_ne_nil _ l hl)
    · split at hs
      · obtain ⟨l, hl, hmk⟩ := List.mem_map.mp hs
        rw [← hmk]
        exact mk_ne_empty l (parseBody_ne_nil _ l hl)
      · exact absurd hs (by simp)
  · intro s hs
    rw [extract_js_array_simple] at hs
    split at hs
    · obtain ⟨l, hl, hmk⟩ := List.mem_map.mp hs
      rw [← hmk]
      exact mk_ne_empty l (multiLineItems_ne_nil _ l hl)
    · exact absurd hs (by simp)

/-- Witness for C10 at a concrete declaration. -/
theorem extracted_strings_nonempty_witness :
    "x" ∈ extract_array "A" "export const A = [\x27x\x27];" ∧ "x" ≠ "" :=
  ⟨by decide, (extracted_strings_nonempty "A" "export const A = [\x27x\x27];").1 "x" (by decide)⟩

/-- C4: when neither the export array regex nor the Set regex matches the
    input for the given name, extract_array returns the empty sequence, and
    extract_js_array_simple returns the empty sequence when its one regex
    does not match.  In the embedding the return type is a plain list, so no
    error and no null value can occur. -/
theorem extract_absent_empty (name content : String) :
    (searchExport name content.data = none → searchSet name content.data = none →
      extract_array name content = []) ∧
    (searchSimple name content.data = none → extract_js_array_simple name content = []) := by
  constructor
  · intro h1 h2
    rw [extract_array, h1, h2]
  · intro h
    rw [extract_js_array_simple, h]

/-- Witness for C4 at a concrete absent name. -/
theorem extract_absent_empty_witness :
    searchExport "FOO" "hello world".data = none ∧
    searchSet "FOO" "hello world".data = none ∧
    searchSimple "FOO" "hello world".data = none ∧
    extract_array "FOO" "hello world" = [] ∧
    extract_js_array_simple "FOO" "hello world" = [] :=
  ⟨by decide, by decide, by decide,
   (extract_absent_empty "FOO" "hello world").1 (by decide) (by decide),
   (extract_absent_empty "FOO" "hello world").2 (by decide)⟩

/-- Appending one selector into a bucket table given as a map over the bucket
    names touches exactly the bucket with the assigned name. -/
theorem addToBucket_map (f : String → List String) (tgt s : String) :
    addToBucket (bucketNames.map (fun b => (b, f b))) tgt s =
      bucketNames.map (fun b => (b, f b ++ if b = tgt then [s] else [])) := by
  rw [addToBucket, List.map_map]
  apply List.map_congr_left
  intro b _
  by_cases hb : b = tgt
  · simp [hb]
  · simp [hb]

/-- The classification fold over any initial bucket table given as a map:
    every bucket collects, in input order, the selectors assigned to it. -/
theorem foldl_addToBucket (sels : List String) :
    ∀ f : String → List String,
      sels.foldl (fun bs s => addToBucket bs (assignBucket s) s)
          (bucketNames.map (fun b => (b, f b))) =
        bucketNames.map (fun b => (b, f b ++ sels.filter (fun s => assignBucket s == b))) := by
  induction sels with
  | nil => intro f; simp
  | cons s l ih =>
    intro f
    rw [List.foldl_cons, addToBucket_map f (assignBucket s) s,
        ih (fun b => f b ++ if b = assignBucket s then [s] else [])]
    apply List.map_congr_left
    intro b _
    rw [List.filter_cons]
    by_cases hb : assignBucket s = b
    · simp [hb, List.append_assoc]
    · have hbeq : (assignBucket s == b) = false := by simp [hb]
      have hne : ¬ b = assignBucket s := fun h => hb h.symm
      simp [hbeq, hne]

/-- Characterization of the categorizer: the bucket table lists, in the fixed
    declared bucket order, each bucket paired with the subsequence of input
    selectors assigned to it, and buckets that stayed empty are dropped. -/
theorem categorize_eq (sels : List String) :
    categorizeSelectors sels =
      (bucketNames.map (fun b => (b, sels.filter (fun s => assignBucket s == b)))).filter
        (fun p => !p.2.isEmpty) := by
  rw [categorizeSelectors]
  have h := foldl_addToBucket sels (fun _ => ([] : List String))
  simp only [List.nil_append] at h
  rw [h]

/-- Every selector is assigned a bucket name from the declared table. -/
theorem assignBucket_mem (s : String) : assignBucket s ∈ bucketNames := by
  rw [assignBucket]
  cases hf : categoryKeywords.find? (fun ck => kwMatches s ck.2) with
  | none => decide
  | some ck =>
    have hmem : ck ∈ categoryKeywords := List.mem_of_find?_eq_some hf
    have hall : ∀ p ∈ categoryKeywords, p.1 ∈ bucketNames := by decide
    exact hall ck hmem

/-- The declared bucket names are pairwise distinct. -/
theorem bucketNames_nodup : bucketNames.Nodup := by decide

/-- Membership in the categorizer output: exactly the pairs of a declared
    bucket name with the nonempty list of selectors assigned to it. -/
theorem mem_categorize_iff (sels : List String) (p : String × List String) :
    p ∈ categorizeSelectors sels ↔
      p.1 ∈ bucketNames ∧ p.2 = sels.filter (fun s => assignBucket s == p.1) ∧ p.2 ≠ [] := by
  rw [categorize_eq]
  constructor
  · intro hp
    obtain ⟨hmem, hne⟩ := List.mem_filter.mp hp
    obtain ⟨b, hb, hpe⟩ := List.mem_map.mp hmem
    have h1 : p.1 = b := by rw [← hpe]
    have h2 : p.2 = sels.filter (fun s => assignBucket s == b) := by rw [← hpe]
    subst h1
    refine ⟨hb, h2, ?_⟩
    simpa using hne
  · rintro ⟨hb, hfil, hne⟩
    apply List.mem_filter.mpr
    refine ⟨List.mem_map.mpr ⟨p.1, hb, ?_⟩, by simpa using hne⟩
    rw [← hfil]

/-- A bucket of the output containing a selector is the bucket assigned to
    that selector. -/
theorem mem_bucket_eq_assign (sels : List String) (s : String) (p : String × List String)
    (hp : p ∈ categorizeSelectors sels) (hsp : s ∈ p.2) : p.1 = assignBucket s := by
  obtain ⟨_, hfil, _⟩ := (mem_categorize_iff sels p).mp hp
  rw [hfil] at hsp
  have := (List.mem_filter.mp hsp).2
  exact (eq_of_beq this).symm

/-- C6: the mapping returned by the categorizer lists buckets in the fixed
    declared order, each bucket holds exactly the selectors assigned to it in
    their original relative order (a filter of the input sequence), and every
    bucket that ended up empty is absent from the result. -/
theorem categorize_ordered_shape (sels : List String) :
    categorizeSelectors sels =
      (bucketNames.map (fun b => (b, sels.filter (fun s => assignBucket s == b)))).filter
        (fun p => !p.2.isEmpty) :=
  categorize_eq sels

/-- C2: categorization is a total partition: every input selector lies in
    exactly one bucket of the output, and it lies in the misc bucket exactly
    when no keyword of any bucket occurs in its lowercased form. -/
theorem categorize_partition (sels : List String) (s : String) (hs : s ∈ sels) :
    (∃! p : String × List String, p ∈ categorizeSelectors sels ∧ s ∈ p.2) ∧
    ((∀ ck ∈ categoryKeywords, kwMatches s ck.2 = false) →
      ∀ p ∈ categorizeSelectors sels, s ∈ p.2 → p.1 = "misc") := by
  constructor
  · refine ⟨(assignBucket s, sels.filter (fun t => assignBucket t == assignBucket s)), ⟨?_, ?_⟩, ?_⟩
    · apply (mem_categorize_iff sels _).mpr
      refine ⟨assignBucket_mem s, rfl, ?_⟩
      intro hnil
      have hmem : s ∈ sels.filter (fun t => assignBucket t == assignBucket s) :=
        List.mem_filter.mpr ⟨hs, by simp⟩
      have hnil2 : sels.filter (fun t => assignBucket t == assignBucket s) = [] := hnil
      rw [hnil2] at hmem
      exact absurd hmem (List.not_mem_nil s)
    · exact List.mem_filter.mpr ⟨hs, by simp⟩
    · rintro p ⟨hp, hsp⟩
      have h1 : p.1 = assignBucket s := mem_bucket_eq_assign sels s p hp hsp
      have h2 := ((mem_categorize_iff sels p).mp hp).2.1
      rw [h1] at h2
      exact Prod.ext h1 h2
  · intro hnone p hp hsp
    have h1 : p.1 = assignBucket s := mem_bucket_eq_assign sels s p hp hsp
    have hfind : categoryKeywords.find? (fun ck => kwMatches s ck.2) = none :=
      List.find?_eq_none.mpr (fun ck hck => by rw [hnone ck hck]; exact Bool.false_ne_true)
    rw [h1, assignBucket, hfind]

/-- Witness for C2 on a one-selector input. -/
theorem categorize_partition_witness :
    ∃! p : String × List String, p ∈ categorizeSelectors ["x"] ∧ "x" ∈ p.2 :=
  (categorize_partition ["x"] "x" (by decide)).1

/-- A leading-block match survives mapping a function over both lists. -/
theorem leadsWith_map (f : Char → Char) :
    ∀ n h : List Char, leadsWith n h = true → leadsWith (n.map f) (h.map f) = true := by
  intro n
  induction n with
  | nil => intro h _; rfl
  | cons a ns ih =>
    intro h hlw
    cases h with
    | nil => simp [leadsWith] at hlw
    | cons b hs =>
      rw [leadsWith, Bool.and_eq_true] at hlw
      obtain ⟨h1, h2⟩ := hlw
      have hab : a = b := of_decide_eq_true h1
      subst hab
      rw [List.map_cons, List.map_cons, leadsWith, Bool.and_eq_true]
      exact ⟨decide_eq_true rfl, ih hs h2⟩

/-- A substring occurrence survives mapping a function over both strings. -/
theorem containsSub_map (f : Char → Char) :
    ∀ hay needle : List Char,
      containsSub hay needle = true → containsSub (hay.map f) (needle.map f) = true := by
  intro hay
  induction hay with
  | nil =>
    intro needle h
    cases needle with
    | nil => rfl
    | cons a t => simp [containsSub, leadsWith] at h
  | cons c t ih =>
    intro needle h
    rw [containsSub, Bool.or_eq_true] at h
    rw [List.map_cons, containsSub, Bool.or_eq_true]
    cases h with
    | inl h1 => exact Or.inl (leadsWith_map f needle (c :: t) h1)
    | inr h2 => exact Or.inr (ih needle h2)

/-- C3: a selector whose text holds both the nav and the ad substring is
    assigned to the ads bucket, the first bucket of the fixed order whose
    keyword list matches, and no bucket of the output other than ads can
    hold it. -/
theorem first_match_wins (sels : List String) (s : String) (hs : s ∈ sels)
    (hnav : containsSub s.data "nav".data = true)
    (had : containsSub s.data "ad".data = true) :
    assignBucket s = "ads" ∧
    ∀ p ∈ categorizeSelectors sels, s ∈ p.2 → p.1 = "ads" := by
  have hlow : containsSub (pyLower s).data "ad".data = true := by
    have hmap := containsSub_map Char.toLower s.data "ad".data had
    have hnd : ("ad".data.map Char.toLower) = "ad".data := by decide
    rw [hnd] at hmap
    exact hmap
  have hkw : kwMatches s ["ad", "advert", "promo", "sponsor", "banner"] = true := by
    rw [kwMatches, List.any_cons, Bool.or_eq_true]
    exact Or.inl hlow
  have hassign : assignBucket s = "ads" := by
    simp only [assignBucket, categoryKeywords, List.find?, hkw]
  refine ⟨hassign, ?_⟩
  intro p hp hsp
  rw [mem_bucket_eq_assign sels s p hp hsp, hassign]

/-- Witness for C3 on a selector holding both substrings. -/
theorem first_match_wins_witness :
    assignBucket "nav-ad" = "ads" ∧
    ∀ p ∈ categorizeSelectors ["nav-ad"], "nav-ad" ∈ p.2 → p.1 = "ads" :=
  first_match_wins ["nav-ad"] "nav-ad" (by decide) (by decide) (by decide)

/-- Dropping a satisfying prefix passes over an all-satisfying block. -/
theorem dropWhile_append_all (p : Char → Bool) (l r : List Char)
    (hl : ∀ c ∈ l, p c = true) : (l ++ r).dropWhile p = r.dropWhile p := by
  induction l with
  | nil => rfl
  | cons a t ih =>
    rw [List.cons_append, List.dropWhile_cons, hl a (List.mem_cons_self a t), if_pos rfl]
    exact ih (fun c hc => hl c (List.mem_cons_of_mem a hc))

/-- The comma stripper is the identity on lists not led by a comma. -/
theorem dropComma_no_comma (l : List Char) (h : l.head? ≠ some ',') : dropComma l = l := by
  cases l with
  | nil => rfl
  | cons a t =>
    by_cases ha : a = ','
    · subst ha
      exact absurd rfl h
    · rw [dropComma.eq_def]
      split
      · rename_i heq
        exact absurd (by rw [← (List.cons.injEq _ _ _ _).mp heq |>.1]) ha
      · rfl

/-- Any well-shaped literal-line tail satisfies the tail matcher: an optional
    comma, then whitespace, then an optional newline-free line comment. -/
theorem tailOk_shape (c : Bool) (ws : List Char) (cmt : Option (List Char))
    (hws : ∀ ch ∈ ws, isPySpace ch = true)
    (hcmt : ∀ t, cmt = some t → '\n' ∉ t) :
    tailOk (commaPart c ++ ws ++ commentPart cmt) = true := by
  have hwc : wsCmt (ws ++ commentPart cmt) = true := by
    rw [wsCmt.eq_def, dropWhile_append_all isPySpace ws (commentPart cmt) hws]
    cases cmt with
    | none => rfl
    | some t =>
      have h1 : (commentPart (some t)).dropWhile isPySpace = '/' :: '/' :: t := by
        rw [commentPart]
        rfl
      rw [h1]
      have h2 : '\n' ∉ t.dropLast := by
        intro hmem
        exact hcmt t rfl (List.dropLast_sublist t |>.mem hmem)
      simpa using h2
  cases c with
  | true =>
    have : commaPart true ++ ws ++ commentPart cmt = ',' :: (ws ++ commentPart cmt) := rfl
    rw [this, tailOk, dropComma]
    exact hwc
  | false =>
    have hid : commaPart false ++ ws ++ commentPart cmt = ws ++ commentPart cmt := rfl
    rw [hid, tailOk, dropComma_no_comma _ ?_]
    · exact hwc
    · cases ws with
      | nil =>
        cases cmt with
        | none => simp [commentPart]
        | some t => simp [commentPart]
      | cons a tl =>
        have ha := hws a (List.mem_cons_self a tl)
        intro hh
        rw [List.cons_append, List.head?_cons] at hh
        have : a = ',' := by injection hh
        rw [this] at ha
        simp [isPySpace] at ha

/-- The lazy capture runs over quote-free content and closes at the first
    quote whose tail matches. -/
theorem lazyGo_append (inner rest : List Char) (qe : Char)
    (hq : isQuote qe = true) (hnq : ∀ ch ∈ inner, isQuote ch = false)
    (hnl : ∀ ch ∈ inner, ch ≠ '\n') (hok : tailOk rest = true) :
    lazyGo (inner ++ qe :: rest) = some inner := by
  induction inner with
  | nil =>
    rw [List.nil_append, lazyGo, if_pos (by rw [hq, hok]; rfl)]
  | cons a t ih =>
    rw [List.cons_append, lazyGo]
    have h1 : (isQuote a && tailOk (t ++ qe :: rest)) = false := by
      rw [hnq a (List.mem_cons_self a t)]
      rfl
    rw [if_neg (by rw [h1]; exact Bool.false_ne_true)]
    rw [if_neg (hnl a (List.mem_cons_self a t))]
    rw [ih (fun ch hch => hnq ch (List.mem_cons_of_mem a hch))
          (fun ch hch => hnl ch (List.mem_cons_of_mem a hch))]
    rfl

/-- C5: on the multi-line path, a body line consisting of one quoted literal
    with quote-free newline-free inner content, optionally followed by a
    trailing comma and a trailing line comment, yields exactly the inner
    content; the concrete line of the specification, whose inner content does
    hold embedded double quotes, yields its literal with comment and comma
    excluded while a comment line and an empty line contribute nothing; and
    every line that strips to empty or to a leading double slash is skipped. -/
theorem multiline_line_literal :
    (∀ (q qe : Char) (inner ws : List Char) (c : Bool) (cmt : Option (List Char)),
        isQuote q = true → isQuote qe = true → inner ≠ [] →
        (∀ ch ∈ inner, isQuote ch = false) → (∀ ch ∈ inner, ch ≠ '\n') →
        (∀ ch ∈ ws, isPySpace ch = true) → (∀ t, cmt = some t → '\n' ∉ t) →
        matchLine (q :: inner ++ qe :: (commaPart c ++ ws ++ commentPart cmt)) = some inner) ∧
    multiLineItems "  \x27[role=\"article\"]\x27,  // comment\n  // note\n\n  \"plain\"".data =
      ["[role=\"article\"]".data, "plain".data] ∧
    (∀ line : List Char, pystrip line = [] ∨ (pystrip line).take 2 = ['/', '/'] →
      lineItem line = none) := by
  refine ⟨?_, by decide, ?_⟩
  · intro q qe inner ws c cmt hq hqe hne hnq hnl hws hcmt
    cases inner with
    | nil => exact absurd rfl hne
    | cons i t =>
      show (if isQuote q then
          matchContent ((i :: t) ++ qe :: (commaPart c ++ ws ++ commentPart cmt))
        else none) = some (i :: t)
      rw [if_pos hq]
      show (if i = '\n' then none
        else (lazyGo (t ++ qe :: (commaPart c ++ ws ++ commentPart cmt))).map
          (fun l => i :: l)) = some (i :: t)
      rw [if_neg (hnl i (List.mem_cons_self i t))]
      rw [lazyGo_append t (commaPart c ++ ws ++ commentPart cmt) qe hqe
            (fun ch hch => hnq ch (List.mem_cons_of_mem i hch))
            (fun ch hch => hnl ch (List.mem_cons_of_mem i hch))
            (tailOk_shape c ws cmt hws hcmt)]
      rfl
  · intro line hline
    have hc : ((pystrip line).isEmpty || decide ((pystrip line).take 2 = ['/', '/'])) = true := by
      cases hline with
      | inl h => rw [h]; rfl
      | inr h => rw [h]; simp
    rw [lineItem, if_pos hc]

/-- Witness for C5 instantiating the line shape at a concrete line. -/
theorem multiline_line_literal_witness :
    matchLine "\x27ab\x27,  // note".data = some "ab".data := by
  have h := multiline_line_literal.1 sqc sqc "ab".data [' ', ' '] true (some " note".data)
    (by decide) (by decide) (by decide) (by decide) (by decide) (by decide)
    (by intro t ht; injection ht with hh; rw [← hh]; decide)
  exact h

/-- Counterexample to C1 as stated: this body holds a line break and exactly
    four single-quote characters, so the claim predicts the single-line path,
    but the extractor takes the multi-line path, and the two paths produce
    different item lists on this body. -/
theorem singleline_claim_cex :
    ('\n' ∈ pystrip "\x27a\x27, \x27b\x27\nx".data) ∧
    "\x27a\x27, \x27b\x27\nx".data.count sqc = 4 ∧
    parseBody "\x27a\x27, \x27b\x27\nx".data ≠ singleLineItems "\x27a\x27, \x27b\x27\nx".data ∧
    parseBody "\x27a\x27, \x27b\x27\nx".data = multiLineItems "\x27a\x27, \x27b\x27\nx".data :=
  ⟨by decide, by decide, by decide, by decide⟩

/-- C1 amended: the extractor takes the single-line path exactly when the
    stripped body holds no line break or the body holds more than four
    single-quote characters; a body with a line break surviving the strip and
    at most four single quotes takes the multi-line path. -/
theorem singleline_condition_amended (body : List Char) :
    (¬ ('\n' ∈ pystrip body) ∨ 4 < body.count sqc →
      parseBody body = singleLineItems body) ∧
    ('\n' ∈ pystrip body ∧ body.count sqc ≤ 4 →
      parseBody body = multiLineItems body) := by
  constructor
  · intro h
    rw [parseBody, if_pos h]
  · rintro ⟨h1, h2⟩
    rw [parseBody, if_neg ?_]
    rintro (hn | hc)
    · exact hn h1
    · exact absurd hc (not_lt.mpr h2)

/-- Witness for the amended C1 on a one-line six-quote body. -/
theorem singleline_condition_amended_witness :
    parseBody "\x27a\x27, \x27b\x27, \x27c\x27".data =
      singleLineItems "\x27a\x27, \x27b\x27, \x27c\x27".data ∧
    singleLineItems "\x27a\x27, \x27b\x27, \x27c\x27".data = ["a".data, "b".data, "c".data] :=
  ⟨(singleline_condition_amended _).1 (Or.inr (by decide)), by decide⟩

/-- C7: when the resolved primary input path is missing from the file system
    the run exits with status 1, writes nothing to standard output and one
    diagnostic line to standard error; when it is present the run exits with
    status 0 after printing the serialized manifest and a newline. -/
theorem main_missing_primary (argv : List String) (files : List (String × String)) :
    (files.lookup (resolvePrimary argv) = none →
      runModel argv files =
        { exitCode := 1, stdout := "",
          stderr := "Error: " ++ resolvePrimary argv ++ " not found\n" }) ∧
    (∀ c, files.lookup (resolvePrimary argv) = some c →
      runModel argv files =
        { exitCode := 0,
          stdout := dumps (buildManifest c
            ((files.lookup (siblingPath (resolvePrimary argv) "scoring.ts")).getD "")) ++ "\n",
          stderr := "" }) := by
  constructor
  · intro h
    rw [runModel, h]
  · intro c h
    rw [runModel, h]

/-- Witness for C7 on the empty file system and empty argument list. -/
theorem main_missing_primary_witness :
    runModel [] [] =
      { exitCode := 1, stdout := "",
        stderr := "Error: tmp/defuddle/src/constants.ts not found\n" } :=
  (main_missing_primary [] []).1 rfl

/-- C9: the run outcome is a pure function of the text found at the two
    resolved input paths: two file systems agreeing on the primary path and
    on its scoring sibling give byte-identical outcomes, whatever else they
    hold. -/
theorem run_pure_function (argv : List String) (files1 files2 : List (String × String))
    (hp : files1.lookup (resolvePrimary argv) = files2.lookup (resolvePrimary argv))
    (hs : files1.lookup (siblingPath (resolvePrimary argv) "scoring.ts") =
          files2.lookup (siblingPath (resolvePrimary argv) "scoring.ts")) :
    runModel argv files1 = runModel argv files2 := by
  simp only [runModel, hp, hs]

/-- Witness for C9: a second file system with one extra unrelated file. -/
theorem run_pure_function_witness :
    runModel ["a.ts"] [("a.ts", "x")] =
      runModel ["a.ts"] [("a.ts", "x"), ("irrelevant.txt", "y")] :=
  run_pure_function ["a.ts"] [("a.ts", "x")] [("a.ts", "x"), ("irrelevant.txt", "y")]
    (by decide) (by decide)

/-- C8: an input document holding only the entry point declaration produces a
    manifest whose content selectors equal article and main while every other
    sequence field is empty and the bucket mapping is empty; and a run whose
    file system lacks the scoring sibling still succeeds with status 0,
    printing the manifest built from empty supplementary text. -/
theorem end_to_end_scenario :
    jGetO (jGetO (some c8manifest) "content_selectors") "selectors" =
      some (JValue.arr [JValue.str "article", JValue.str "main"]) ∧
    jGetO (jGetO (some c8manifest) "remove") "exact_selectors" = some (JValue.arr []) ∧
    jGetO (jGetO (jGetO (some c8manifest) "remove") "partial_patterns") "check_attributes" =
      some (JValue.arr []) ∧
    jGetO (jGetO (jGetO (some c8manifest) "remove") "partial_patterns") "patterns" =
      some (JValue.obj []) ∧
    jGetO (jGetO (some c8manifest) "preserve") "block_elements" = some (JValue.arr []) ∧
    jGetO (jGetO (some c8manifest) "preserve") "preserve_elements" = some (JValue.arr []) ∧
    jGetO (jGetO (some c8manifest) "preserve") "inline_elements" = some (JValue.arr []) ∧
    jGetO (jGetO (some c8manifest) "preserve") "allowed_empty" = some (JValue.arr []) ∧
    jGetO (jGetO (some c8manifest) "preserve") "allowed_attributes" = some (JValue.arr []) ∧
    jGetO (jGetO (some c8manifest) "footnotes") "inline_references" = some (JValue.arr []) ∧
    jGetO (jGetO (some c8manifest) "footnotes") "list_selectors" = some (JValue.arr []) ∧
    jGetO (jGetO (some c8manifest) "scoring") "content_indicators" = some (JValue.arr []) ∧
    jGetO (jGetO (some c8manifest) "scoring") "navigation_indicators" = some (JValue.arr []) ∧
    jGetO (jGetO (some c8manifest) "scoring") "non_content_patterns" = some (JValue.arr []) ∧
    runModel ["c/constants.ts"] [("c/constants.ts", c8content)] =
      { exitCode := 0, stdout := dumps c8manifest ++ "\n", stderr := "" } :=
  ⟨rfl, rfl, rfl, rfl, rfl, rfl, rfl, rfl, rfl, rfl, rfl, rfl, rfl, rfl, rfl⟩
